import Mathlib

/-!
Verification of the mimic save pipeline (`src/mimic/db/query/src/save.rs`)
and the remote request wrappers (`src/api/src/request.rs`).

The pipeline is shallowly embedded: entities are an abstract type `E`
together with a record of the capabilities the pipeline consumes
(`on_create`, `sanitize`, `composite_key_dyn`, `path_dyn`,
`serialize_dyn`, `validate`); the ordered store layer (the `db` crate,
whose sources are not included) is modelled from the spec as a total map
from store path and data key to optional stored values.  Timestamps are
naturals; `Timestamp::now()` is passed in as an explicit parameter.
-/

namespace Mimic

/-- Timestamps are opaque monotone wall-clock captures; modelled as naturals. -/
abbrev Timestamp := Nat

/-- Metadata attached to each stored value (`db` crate `Metadata`):
creation and modification timestamps. -/
structure Metadata where
  created : Timestamp
  modified : Timestamp
deriving DecidableEq, Repr

/-- A stored value (`db` crate `DataValue`): opaque serialized payload
bytes paired with metadata.  Bytes are modelled as a list of naturals. -/
structure DataValue where
  data : List Nat
  metadata : Metadata
deriving DecidableEq, Repr

/-- A row (`db` crate `DataRow`): the resolved key together with the
stored value, returned to the caller after a successful save. -/
structure DataRow (K : Type) where
  key : K
  value : DataValue
deriving DecidableEq, Repr

/-- `SaveError` from save.rs: conflict errors and the empty-result error. -/
inductive SaveError (K : Type) where
  | keyExists (key : K)
  | keyNotFound (key : K)
  | noResultsFound
deriving DecidableEq, Repr

/-- The query-level `Error` as the pipeline surfaces it: a `SaveError`,
or a resolution / validation / serialization / deserialization failure
propagated from a collaborator (carried here as an opaque message). -/
inductive Error (K : Type) where
  | save (e : SaveError K)
  | resolution (msg : String)
  | validation (msg : String)
  | serialize (msg : String)
  | deserialize (msg : String)
deriving DecidableEq, Repr

/-- `SaveMode` from save.rs: Create / Replace / Update. -/
inductive SaveMode where
  | Create
  | Replace
  | Update
deriving DecidableEq, Repr

/-- `SaveOptions` from save.rs: batch-wide sanitize and validate flags. -/
structure SaveOptions where
  sanitize : Bool
  validate : Bool
deriving DecidableEq, Repr

/-- `impl Default for SaveOptions`: both flags default to on. -/
def SaveOptions.default : SaveOptions :=
  { sanitize := true, validate := true }

/-- `SaveBuilderConfig` from save.rs (the debug context is purely
observational and carries no control flow, so it is omitted). -/
structure SaveBuilderConfig where
  mode : SaveMode
  options : SaveOptions

/-- The entity capability contract consumed by the pipeline
(`EntityDynamic` in the source): on-create hook, sanitizer, composite
key extraction, logical path, fallible serializer and validator.
`CK` is the composite-key type and `P` the logical-path type, both
opaque to the pipeline. -/
structure EntityOps (E CK P : Type) where
  on_create : E → E
  sanitize : E → E
  composite_key_dyn : E → CK
  path_dyn : E → P
  serialize_dyn : E → Except String (List Nat)
  validate : E → Except String Unit

/-- Modelled from the spec: the Key Resolver (its sources are not
included here).  §4.2: `data_key` deterministically maps the logical
path and composite key to a canonical store key; `store` names the
target store and fails with a resolution error when the path is not
registered.  Resolution performs no I/O. -/
structure Resolver (CK P K SP : Type) where
  data_key : P → CK → Except String K
  store : P → Except String SP

/-- Modelled from the spec: the Ordered Store layer (`db` crate, sources
not included).  §4.1: a store is a mapping from keys to stored values;
`Db` maps each store path to its store.  Only `get` and `insert` are
needed by the save pipeline. -/
def Db (SP K : Type) := SP → K → Option DataValue

/-- Modelled from the spec: `get(key) -> Option<StoredValue>`, no side
effects. -/
def Db.get {SP K : Type} (db : Db SP K) (sp : SP) (k : K) : Option DataValue :=
  db sp k

/-- Modelled from the spec: `insert(key, value)` overwrites
unconditionally in the named store. -/
def Db.insert {SP K : Type} [DecidableEq SP] [DecidableEq K]
    (db : Db SP K) (sp : SP) (k : K) (v : DataValue) : Db SP K :=
  fun sp' k' => if sp' = sp ∧ k' = k then some v else db sp' k'

/-- The pipeline environment: an entity capability record plus the
resolver. -/
structure SaveEnv (E CK P K SP : Type) where
  ops : EntityOps E CK P
  resolver : Resolver CK P K SP

section Pipeline

variable {E CK P K SP : Type} [DecidableEq K] [DecidableEq SP]

/-- The pre-mutate and sanitize steps of `execute_one`: the on-create
hook runs exactly when the mode is `Create`; the sanitizer runs when the
batch-wide sanitize flag is set. -/
def procEntity (env : SaveEnv E CK P K SP) (cfg : SaveBuilderConfig) (e : E) : E :=
  let e1 := if cfg.mode = SaveMode.Create then env.ops.on_create e else e
  if cfg.options.sanitize then env.ops.sanitize e1 else e1

/-- The store-independent front of `execute_one`: hook and sanitize, key
resolution, optional validation, serialization, and store-path
resolution, in source order.  Returns the resolved key, the serialized
payload bytes and the target store path, or the first error. -/
def prepare (env : SaveEnv E CK P K SP) (cfg : SaveBuilderConfig) (e : E) :
    Except (Error K) (K × List Nat × SP) :=
  let e1 := procEntity env cfg e
  match env.resolver.data_key (env.ops.path_dyn e1) (env.ops.composite_key_dyn e1) with
  | .error m => .error (.resolution m)
  | .ok key =>
    match (if cfg.options.validate then env.ops.validate e1 else .ok ()) with
    | .error m => .error (.validation m)
    | .ok _ =>
      match env.ops.serialize_dyn e1 with
      | .error m => .error (.serialize m)
      | .ok data =>
        match env.resolver.store (env.ops.path_dyn e1) with
        | .error m => .error (.resolution m)
        | .ok sp => .ok (key, data, sp)

/-- The commit step of `execute_one`: build the `DataValue`, insert it
at the key, and return the fresh `DataRow`. -/
def commit (db : Db SP K) (sp : SP) (key : K) (data : List Nat)
    (created modified : Timestamp) : Db SP K × Except (Error K) (DataRow K) :=
  let value : DataValue := { data := data, metadata := { created := created, modified := modified } }
  (db.insert sp key value, .ok { key := key, value := value })

/-- `SaveBuilderExecutor::execute_one` from save.rs: run the prepare
steps, read the existing value at the resolved key, branch on the
conflict mode to compute `(created, modified)`, then commit.  The store
is threaded explicitly; an error before commit leaves it untouched.
`now` stands for the source's `Timestamp::now()` capture. -/
def execute_one (env : SaveEnv E CK P K SP) (cfg : SaveBuilderConfig)
    (now : Timestamp) (db : Db SP K) (e : E) :
    Db SP K × Except (Error K) (DataRow K) :=
  match prepare env cfg e with
  | .error err => (db, .error err)
  | .ok (key, data, sp) =>
    match cfg.mode, db.get sp key with
    | SaveMode.Create, some _ => (db, .error (.save (.keyExists key)))
    | SaveMode.Create, none => commit db sp key data now now
    | SaveMode.Update, none => (db, .error (.save (.keyNotFound key)))
    | SaveMode.Update, some old =>
        commit db sp key data old.metadata.created
          (if data = old.data then old.metadata.modified else now)
    | SaveMode.Replace, some old =>
        commit db sp key data old.metadata.created
          (if data = old.data then old.metadata.modified else now)
    | SaveMode.Replace, none => commit db sp key data now now

/-- `SaveBuilderExecutor::execute` from save.rs: process the batch
sequentially in input order, collecting rows, stopping at the first
error.  `times i` is the `Timestamp::now()` value observed while
processing the item at position `i`. -/
def executeFrom (env : SaveEnv E CK P K SP) (cfg : SaveBuilderConfig)
    (times : Nat → Timestamp) (i : Nat) (db : Db SP K) :
    List E → Db SP K × Except (Error K) (List (DataRow K))
  | [] => (db, .ok [])
  | e :: rest =>
    match execute_one env cfg (times i) db e with
    | (db1, .error err) => (db1, .error err)
    | (db1, .ok row) =>
      match executeFrom env cfg times (i + 1) db1 rest with
      | (db2, .error err) => (db2, .error err)
      | (db2, .ok rows) => (db2, .ok (row :: rows))

/-- The batch entry point: `executeFrom` starting at position 0. -/
def execute (env : SaveEnv E CK P K SP) (cfg : SaveBuilderConfig)
    (times : Nat → Timestamp) (db : Db SP K) (entities : List E) :
    Db SP K × Except (Error K) (List (DataRow K)) :=
  executeFrom env cfg times 0 db entities

end Pipeline

/-- `SaveBuilderResult` from save.rs: the ordered list of committed rows. -/
structure SaveBuilderResult (K : Type) where
  results : List (DataRow K)

/-- Modelled from the spec: `QueryRow`, the untyped row-level wrapper a
`DataRow` converts into (its defining module is not included); it
carries the row unchanged. -/
structure QueryRow (K : Type) where
  row : DataRow K
deriving DecidableEq, Repr

/-- The `Into<QueryRow>` conversion applied by the accessors. -/
def DataRow.toQueryRow {K : Type} (r : DataRow K) : QueryRow K :=
  { row := r }

/-- The value half of a typed `EntityRow`: the decoded entity plus the
row metadata. -/
structure EntityValue (Ent : Type) where
  entity : Ent
  metadata : Metadata
deriving DecidableEq, Repr

/-- Modelled from the spec: `EntityRow<E>`, the typed row wrapper (its
defining module is not included): the key plus the decoded entity value. -/
structure EntityRow (K Ent : Type) where
  key : K
  value : EntityValue Ent
deriving DecidableEq, Repr

/-- Modelled from the spec: the `TryInto<EntityRow<E>>` conversion —
decode the row's payload bytes into the caller-specified entity type,
failing with a decode error when the payload does not match.  The
decoder `deser` is the entity type's deserialize capability. -/
def DataRow.tryIntoEntityRow {K Ent : Type} (deser : List Nat → Except String Ent)
    (r : DataRow K) : Except (Error K) (EntityRow K Ent) :=
  match deser r.value.data with
  | .ok ent => .ok { key := r.key, value := { entity := ent, metadata := r.value.metadata } }
  | .error m => .error (.deserialize m)

/-- `SaveBuilderResult::query_row`: first row converted to a `QueryRow`,
or `NoResultsFound` when the batch result is empty. -/
def SaveBuilderResult.query_row {K : Type} (res : SaveBuilderResult K) :
    Except (Error K) (QueryRow K) :=
  match res.results.head? with
  | some r => .ok r.toQueryRow
  | none => .error (.save .noResultsFound)

/-- `SaveBuilderResult::entity_row`: first row decoded into a typed
`EntityRow`, or `NoResultsFound` when the batch result is empty. -/
def SaveBuilderResult.entity_row {K Ent : Type} (deser : List Nat → Except String Ent)
    (res : SaveBuilderResult K) : Except (Error K) (EntityRow K Ent) :=
  match res.results.head? with
  | some r => r.tryIntoEntityRow deser
  | none => .error (.save .noResultsFound)

/-- `SaveBuilderResult::entity`: the decoded entity of the first row, or
`NoResultsFound` when the batch result is empty. -/
def SaveBuilderResult.entity {K Ent : Type} (deser : List Nat → Except String Ent)
    (res : SaveBuilderResult K) : Except (Error K) Ent :=
  match res.results.head? with
  | some r => (r.tryIntoEntityRow deser).map (fun er => er.value.entity)
  | none => .error (.save .noResultsFound)

/-!
Remote request wrappers from `src/api/src/request.rs`.  The awaited
remote call `request(req).await` reaches an external collaborator; its
outcome is passed in as an explicit `Except` parameter.  Principals are
opaque identifiers, modelled as naturals.
-/

/-- Principals are opaque canister identifiers; modelled as naturals. -/
abbrev Principal := Nat

/-- `Response` from request.rs: the three response variants. -/
inductive Response where
  | canisterCreate (id : Principal)
  | canisterUpgrade
  | cycles
deriving DecidableEq, Repr

/-- The api-level error as the wrappers surface it: the
`RequestError::InvalidResponse` variant embedding the unexpected
response, or an opaque propagated error. -/
inductive ApiError where
  | invalidResponse (response : Response)
  | other (msg : String)
deriving DecidableEq, Repr

/-- The child index updated by `ChildIndexManager::add_canister`:
an association of canister ids to paths. -/
abbrev ChildIndex := List (Principal × String)

/-- `request_canister_create` from request.rs: on a `CanisterCreate`
response, record the new canister in the child index and return its id;
on any other response variant, fail with `InvalidResponse` embedding it;
propagate remote errors unchanged. -/
def request_canister_create (index : ChildIndex) (canister_path : String)
    (res : Except ApiError Response) : ChildIndex × Except ApiError Principal :=
  match res with
  | .ok (.canisterCreate new_canister_id) =>
      ((new_canister_id, canister_path) :: index, .ok new_canister_id)
  | .ok response => (index, .error (.invalidResponse response))
  | .error e => (index, .error e)

/-- `request_canister_upgrade` from request.rs: the awaited response is
bound to `_res` and discarded — no variant check is performed. -/
def request_canister_upgrade (res : Except ApiError Response) :
    Except ApiError Unit :=
  match res with
  | .ok _ => .ok ()
  | .error e => .error e

/-- The cycles-needed computation inside `request_cycles`: the shortfall
up to `initial_cycles` when the balance is below `min_cycles`, else 0. -/
def cyclesNeeded (balance min_cycles initial_cycles : Nat) : Nat :=
  if balance < min_cycles ∧ initial_cycles > balance then
    initial_cycles - balance
  else
    0

/-- `request_cycles` from request.rs: when cycles are needed, issue the
request and accept only the `Cycles` response variant, failing with
`InvalidResponse` on any other; when none are needed, succeed without a
request. -/
def request_cycles (balance min_cycles initial_cycles : Nat)
    (res : Except ApiError Response) : Except ApiError Unit :=
  if cyclesNeeded balance min_cycles initial_cycles > 0 then
    match res with
    | .ok .cycles => .ok ()
    | .ok response => .error (.invalidResponse response)
    | .error e => .error e
  else
    .ok ()

/-!
A small concrete instantiation used by the witness theorems: entities
are naturals, composite keys and data keys are naturals, logical paths
and store paths are strings.
-/

/-- Concrete entity capabilities for witnesses: the on-create hook adds
100 (an id generator), sanitize is the identity, the composite key is
the entity modulo 10, the payload is the singleton byte list, and
validation rejects entities of 1000 or more. -/
def natOps : EntityOps Nat Nat String where
  on_create e := e + 100
  sanitize e := e
  composite_key_dyn e := e % 10
  path_dyn _ := "user"
  serialize_dyn e := .ok [e]
  validate e := if e < 1000 then .ok () else .error "field out of range"

/-- Concrete resolver for witnesses: the data key is the composite key
itself; only the path "user" is registered, mapping to "data_user". -/
def natResolver : Resolver Nat String Nat String where
  data_key _ ck := .ok ck
  store p := if p = "user" then .ok "data_user" else .error "store not found"

/-- The concrete pipeline environment for witnesses. -/
def natEnv : SaveEnv Nat Nat String Nat String :=
  { ops := natOps, resolver := natResolver }

/-- The empty concrete store map. -/
def emptyDb : Db String Nat := fun _ _ => none

/-- A concrete typed deserializer for witnesses: decodes a singleton
byte list, rejecting anything else. -/
def natDeser : List Nat → Except String Nat :=
  fun bytes =>
    match bytes with
    | [x] => .ok x
    | _ => .error "payload mismatch"

deriving instance DecidableEq for Except

section Lemmas

variable {E CK P K SP : Type} [DecidableEq K] [DecidableEq SP]

theorem Db.get_insert_self (db : Db SP K) (sp : SP) (k : K) (v : DataValue) :
    (db.insert sp k v).get sp k = some v := by
  simp [Db.get, Db.insert]

theorem Db.get_insert_ne (db : Db SP K) (sp sp' : SP) (k k' : K) (v : DataValue)
    (h : ¬(sp' = sp ∧ k' = k)) : (db.insert sp k v).get sp' k' = db.get sp' k' := by
  simp [Db.get, Db.insert, h]

/-- Any error from `execute_one` leaves the store untouched: only the
commit step mutates it. -/
theorem execute_one_error_eq (env : SaveEnv E CK P K SP) (cfg : SaveBuilderConfig)
    (now : Timestamp) (db db' : Db SP K) (e : E) (err : Error K)
    (h : execute_one env cfg now db e = (db', .error err)) : db' = db := by
  unfold execute_one at h
  split at h
  · simp only [Prod.mk.injEq] at h
    exact h.1.symm
  · split at h <;> simp only [commit, Prod.mk.injEq] at h <;>
      first
        | exact h.1.symm
        | exact absurd h.2 (by simp)

/-- Inversion for a successful `execute_one`: the prepare steps
succeeded, the returned row carries the resolved key and serialized
bytes, the new store is the old one with the row inserted at the key,
and the metadata follows the conflict-mode rules against the old value. -/
theorem execute_one_ok_inv (env : SaveEnv E CK P K SP) (cfg : SaveBuilderConfig)
    (now : Timestamp) (db db' : Db SP K) (e : E) (r : DataRow K)
    (h : execute_one env cfg now db e = (db', .ok r)) :
    ∃ key data sp,
      prepare env cfg e = .ok (key, data, sp) ∧
      r.key = key ∧ r.value.data = data ∧
      db' = db.insert sp key r.value ∧
      ((db.get sp key = none ∧ cfg.mode ≠ SaveMode.Update ∧
          r.value.metadata = { created := now, modified := now }) ∨
       (∃ old, db.get sp key = some old ∧ cfg.mode ≠ SaveMode.Create ∧
          r.value.metadata.created = old.metadata.created ∧
          r.value.metadata.modified =
            (if r.value.data = old.data then old.metadata.modified else now))) := by
  unfold execute_one at h
  split at h
  · exact absurd (congrArg Prod.snd h) (by simp)
  · rename_i key data sp hp
    refine ⟨key, data, sp, hp, ?_⟩
    split at h <;> simp only [commit, Prod.mk.injEq] at h
    · exact absurd h.2 (by simp)
    · rename_i hmode hget
      obtain ⟨hdb, hr⟩ := h
      cases hr.symm
      exact ⟨rfl, rfl, hdb.symm, Or.inl ⟨hget, by simp [hmode], rfl⟩⟩
    · exact absurd h.2 (by simp)
    · rename_i old hmode hget
      obtain ⟨hdb, hr⟩ := h
      cases hr.symm
      exact ⟨rfl, rfl, hdb.symm, Or.inr ⟨old, hget, by simp [hmode], rfl, rfl⟩⟩
    · rename_i old hmode hget
      obtain ⟨hdb, hr⟩ := h
      cases hr.symm
      exact ⟨rfl, rfl, hdb.symm, Or.inr ⟨old, hget, by simp [hmode], rfl, rfl⟩⟩
    · rename_i hmode hget
      obtain ⟨hdb, hr⟩ := h
      cases hr.symm
      exact ⟨rfl, rfl, hdb.symm, Or.inl ⟨hget, by simp [hmode], rfl⟩⟩

end Lemmas

section Claims

variable {E CK P K SP : Type} [DecidableEq K] [DecidableEq SP]

/-- Claim C2: a save in `Create` mode whose resolved key already holds a
value fails with `KeyExists`, and the store after the failed attempt is
the store before it — in particular the value at the key is unchanged. -/
theorem create_fails_key_exists (env : SaveEnv E CK P K SP) (cfg : SaveBuilderConfig)
    (now : Timestamp) (db : Db SP K) (e : E) (key : K) (data : List Nat) (sp : SP)
    (v : DataValue)
    (hmode : cfg.mode = SaveMode.Create)
    (hp : prepare env cfg e = .ok (key, data, sp))
    (hv : db.get sp key = some v) :
    execute_one env cfg now db e = (db, .error (.save (.keyExists key))) ∧
    (execute_one env cfg now db e).1.get sp key = some v := by
  have h : execute_one env cfg now db e = (db, .error (.save (.keyExists key))) := by
    simp [execute_one, hp, hmode, hv]
  exact ⟨h, by rw [h]; exact hv⟩

/-- Witness for C2 at a concrete occupied key. -/
theorem create_fails_key_exists_witness :
    execute_one natEnv { mode := .Create, options := .default } 9
        (emptyDb.insert "data_user" 3 { data := [7], metadata := { created := 5, modified := 5 } }) 103 =
      (emptyDb.insert "data_user" 3 { data := [7], metadata := { created := 5, modified := 5 } },
       .error (.save (.keyExists 3))) ∧
    (execute_one natEnv { mode := .Create, options := .default } 9
        (emptyDb.insert "data_user" 3 { data := [7], metadata := { created := 5, modified := 5 } }) 103).1.get
      "data_user" 3 = some { data := [7], metadata := { created := 5, modified := 5 } } :=
  create_fails_key_exists natEnv { mode := .Create, options := .default } 9
    (emptyDb.insert "data_user" 3 { data := [7], metadata := { created := 5, modified := 5 } })
    103 3 [203] "data_user" { data := [7], metadata := { created := 5, modified := 5 } }
    rfl (by decide) (by decide)

/-- Claim C3: a save in `Update` mode whose resolved key holds no value
fails with `KeyNotFound`, and the store is left without an entry at that
key — an `Update` never creates an entry. -/
theorem update_fails_key_not_found (env : SaveEnv E CK P K SP) (cfg : SaveBuilderConfig)
    (now : Timestamp) (db : Db SP K) (e : E) (key : K) (data : List Nat) (sp : SP)
    (hmode : cfg.mode = SaveMode.Update)
    (hp : prepare env cfg e = .ok (key, data, sp))
    (habs : db.get sp key = none) :
    execute_one env cfg now db e = (db, .error (.save (.keyNotFound key))) ∧
    (execute_one env cfg now db e).1.get sp key = none := by
  have h : execute_one env cfg now db e = (db, .error (.save (.keyNotFound key))) := by
    simp [execute_one, hp, hmode, habs]
  exact ⟨h, by rw [h]; exact habs⟩

/-- Witness for C3 at a concrete absent key. -/
theorem update_fails_key_not_found_witness :
    execute_one natEnv { mode := .Update, options := .default } 9 emptyDb 3 =
      (emptyDb, .error (.save (.keyNotFound 3))) ∧
    (execute_one natEnv { mode := .Update, options := .default } 9 emptyDb 3).1.get
      "data_user" 3 = none :=
  update_fails_key_not_found natEnv { mode := .Update, options := .default } 9 emptyDb
    3 3 [3] "data_user" rfl (by decide) (by decide)

/-- Claim C4: once the prepare steps succeed, a `Replace` save never
fails on key presence or absence; afterwards the store holds the newly
serialized payload at the resolved key, with timestamps `(now, now)`
when the key was absent, and with `created` copied from the old value
and `modified` following the byte-comparison rule when it was present. -/
theorem replace_never_fails (env : SaveEnv E CK P K SP) (cfg : SaveBuilderConfig)
    (now : Timestamp) (db : Db SP K) (e : E) (key : K) (data : List Nat) (sp : SP)
    (hmode : cfg.mode = SaveMode.Replace)
    (hp : prepare env cfg e = .ok (key, data, sp)) :
    ∃ r : DataRow K,
      execute_one env cfg now db e = (db.insert sp key r.value, .ok r) ∧
      r.key = key ∧ r.value.data = data ∧
      (db.insert sp key r.value).get sp key = some r.value ∧
      (db.get sp key = none → r.value.metadata = { created := now, modified := now }) ∧
      (∀ old, db.get sp key = some old →
        r.value.metadata.created = old.metadata.created ∧
        r.value.metadata.modified =
          (if data = old.data then old.metadata.modified else now)) := by
  cases hg : db.get sp key with
  | none =>
    refine ⟨⟨key, ⟨data, ⟨now, now⟩⟩⟩,
      ?_, rfl, rfl, Db.get_insert_self db sp key _, fun _ => rfl, ?_⟩
    · simp [execute_one, hp, hmode, hg, commit]
    · intro old hold
      exact absurd hold (by simp)
  | some old =>
    refine ⟨⟨key, ⟨data, ⟨old.metadata.created,
        if data = old.data then old.metadata.modified else now⟩⟩⟩,
      ?_, rfl, rfl, Db.get_insert_self db sp key _, ?_, ?_⟩
    · simp [execute_one, hp, hmode, hg, commit]
    · intro habs
      exact absurd habs (by simp)
    · intro old' hold'
      injection hold' with h
      subst h
      exact ⟨rfl, rfl⟩

/-- Witness for C4 at a concrete occupied key with differing bytes. -/
theorem replace_never_fails_witness :
    ∃ r : DataRow Nat,
      execute_one natEnv { mode := .Replace, options := .default } 9
          (emptyDb.insert "data_user" 3 { data := [7], metadata := { created := 5, modified := 5 } }) 3 =
        ((emptyDb.insert "data_user" 3 { data := [7], metadata := { created := 5, modified := 5 } }).insert
          "data_user" 3 r.value, .ok r) ∧
      r.key = 3 ∧ r.value.data = [3] ∧
      ((emptyDb.insert "data_user" 3 { data := [7], metadata := { created := 5, modified := 5 } }).insert
        "data_user" 3 r.value).get "data_user" 3 = some r.value ∧
      ((emptyDb.insert "data_user" 3 { data := [7], metadata := { created := 5, modified := 5 } }).get
          "data_user" 3 = none → r.value.metadata = { created := 9, modified := 9 }) ∧
      (∀ old, (emptyDb.insert "data_user" 3 { data := [7], metadata := { created := 5, modified := 5 } }).get
          "data_user" 3 = some old →
        r.value.metadata.created = old.metadata.created ∧
        r.value.metadata.modified = (if [3] = old.data then old.metadata.modified else 9)) :=
  replace_never_fails natEnv { mode := .Replace, options := .default } 9
    (emptyDb.insert "data_user" 3 { data := [7], metadata := { created := 5, modified := 5 } })
    3 3 [3] "data_user" rfl (by decide)

/-- Claim C10: a successful save returns a `DataRow` carrying exactly
the resolved key and the value inserted into the target store by the
commit step, so a subsequent get at that key returns the row's value. -/
theorem save_row_matches_committed (env : SaveEnv E CK P K SP) (cfg : SaveBuilderConfig)
    (now : Timestamp) (db db' : Db SP K) (e : E) (r : DataRow K)
    (key : K) (data : List Nat) (sp : SP)
    (hp : prepare env cfg e = .ok (key, data, sp))
    (h : execute_one env cfg now db e = (db', .ok r)) :
    r.key = key ∧ r.value.data = data ∧
    db' = db.insert sp key r.value ∧
    db'.get sp r.key = some r.value := by
  obtain ⟨key', data', sp', hp', hrk, hrd, hdb, _⟩ :=
    execute_one_ok_inv env cfg now db db' e r h
  rw [hp] at hp'
  obtain ⟨hk, hd, hs⟩ : key = key' ∧ data = data' ∧ sp = sp' := by
    simpa [Prod.ext_iff] using hp'
  subst hk hd hs
  refine ⟨hrk, hrd, hdb, ?_⟩
  rw [hdb, hrk]
  exact Db.get_insert_self db sp key r.value

/-- Witness for C10 at a concrete fresh key. -/
theorem save_row_matches_committed_witness :
    ({ key := 3, value := { data := [103], metadata := { created := 5, modified := 5 } } } : DataRow Nat).key = 3 ∧
    ({ key := 3, value := { data := [103], metadata := { created := 5, modified := 5 } } } : DataRow Nat).value.data = [103] ∧
    (execute_one natEnv { mode := .Create, options := .default } 5 emptyDb 3).1 =
      emptyDb.insert "data_user" 3
        ({ key := 3, value := { data := [103], metadata := { created := 5, modified := 5 } } } : DataRow Nat).value ∧
    ((execute_one natEnv { mode := .Create, options := .default } 5 emptyDb 3).1).get "data_user"
        ({ key := 3, value := { data := [103], metadata := { created := 5, modified := 5 } } } : DataRow Nat).key =
      some ({ key := 3, value := { data := [103], metadata := { created := 5, modified := 5 } } } : DataRow Nat).value :=
  save_row_matches_committed natEnv { mode := .Create, options := .default } 5 emptyDb
    (execute_one natEnv { mode := .Create, options := .default } 5 emptyDb 3).1 3
    { key := 3, value := { data := [103], metadata := { created := 5, modified := 5 } } }
    3 [103] "data_user" (by decide) (Prod.ext rfl (by decide))

/-- Claim C6: across a successful save in any mode, the stored `created`
timestamp at the key never decreases: on first insert it is set to
`now`, and on every overwrite it is copied unchanged from the existing
stored value. -/
theorem created_never_decreases (env : SaveEnv E CK P K SP) (cfg : SaveBuilderConfig)
    (now : Timestamp) (db db' : Db SP K) (e : E) (r : DataRow K)
    (key : K) (data : List Nat) (sp : SP)
    (hp : prepare env cfg e = .ok (key, data, sp))
    (h : execute_one env cfg now db e = (db', .ok r)) :
    (∀ old, db.get sp key = some old →
      r.value.metadata.created = old.metadata.created ∧
      old.metadata.created ≤ r.value.metadata.created) ∧
    (db.get sp key = none → r.value.metadata.created = now) := by
  obtain ⟨key', data', sp', hp', _, _, _, hcase⟩ :=
    execute_one_ok_inv env cfg now db db' e r h
  rw [hp] at hp'
  obtain ⟨hk, hd, hs⟩ : key = key' ∧ data = data' ∧ sp = sp' := by
    simpa [Prod.ext_iff] using hp'
  subst hk hd hs
  rcases hcase with ⟨hnone, _, hmd⟩ | ⟨old, hsome, _, hcr, _⟩
  · refine ⟨?_, fun _ => by rw [hmd]⟩
    intro old hold
    rw [hnone] at hold
    exact absurd hold (by simp)
  · refine ⟨?_, ?_⟩
    · intro old' hold'
      rw [hsome] at hold'
      cases hold'
      exact ⟨hcr, le_of_eq hcr.symm⟩
    · intro habs
      rw [hsome] at habs
      exact absurd habs (by simp)

/-- Witness for C6 at a concrete occupied key: an `Update` with fresh
bytes keeps the old `created` timestamp. -/
theorem created_never_decreases_witness :
    (∀ old, (emptyDb.insert "data_user" 3 { data := [7], metadata := { created := 2, modified := 2 } }).get
        "data_user" 3 = some old →
      ({ key := 3, value := { data := [3], metadata := { created := 2, modified := 9 } } } : DataRow Nat).value.metadata.created =
          old.metadata.created ∧
        old.metadata.created ≤
          ({ key := 3, value := { data := [3], metadata := { created := 2, modified := 9 } } } : DataRow Nat).value.metadata.created) ∧
    ((emptyDb.insert "data_user" 3 { data := [7], metadata := { created := 2, modified := 2 } }).get
        "data_user" 3 = none →
      ({ key := 3, value := { data := [3], metadata := { created := 2, modified := 9 } } } : DataRow Nat).value.metadata.created = 9) :=
  created_never_decreases natEnv { mode := .Update, options := .default } 9
    (emptyDb.insert "data_user" 3 { data := [7], metadata := { created := 2, modified := 2 } })
    (execute_one natEnv { mode := .Update, options := .default } 9
      (emptyDb.insert "data_user" 3 { data := [7], metadata := { created := 2, modified := 2 } }) 3).1
    3 { key := 3, value := { data := [3], metadata := { created := 2, modified := 9 } } }
    3 [3] "data_user" (by decide) (Prod.ext rfl (by decide))

/-- Claim C1: under `Replace` mode, saving the same entity twice yields
on the second save an identical row — in particular the same `modified`
and the same `created` timestamps — because an overwrite bumps
`modified` to `now` only when the new serialized bytes differ
byte-for-byte from the stored bytes, and otherwise retains the old
`modified` together with the old `created`. -/
theorem replace_rewrite_idempotent (env : SaveEnv E CK P K SP) (cfg : SaveBuilderConfig)
    (hmode : cfg.mode = SaveMode.Replace) :
    (∀ (t0 t1 : Timestamp) (db db1 db2 : Db SP K) (e : E) (r1 r2 : DataRow K),
      execute_one env cfg t0 db e = (db1, .ok r1) →
      execute_one env cfg t1 db1 e = (db2, .ok r2) →
      r2 = r1 ∧
      r2.value.metadata.modified = r1.value.metadata.modified ∧
      r2.value.metadata.created = r1.value.metadata.created) ∧
    (∀ (now : Timestamp) (db db' : Db SP K) (e : E) (r : DataRow K)
        (key : K) (data : List Nat) (sp : SP) (old : DataValue),
      prepare env cfg e = .ok (key, data, sp) →
      db.get sp key = some old →
      execute_one env cfg now db e = (db', .ok r) →
      r.value.metadata.modified =
        (if data = old.data then old.metadata.modified else now) ∧
      r.value.metadata.created = old.metadata.created) := by
  constructor
  · intro t0 t1 db db1 db2 e r1 r2 h1 h2
    obtain ⟨key, data, sp, hp, hrk, hrd, hdb1, _⟩ :=
      execute_one_ok_inv env cfg t0 db db1 e r1 h1
    have hget : db1.get sp key = some r1.value := by
      rw [hdb1]
      exact Db.get_insert_self db sp key r1.value
    have h2' : commit db1 sp key data r1.value.metadata.created
        (if data = r1.value.data then r1.value.metadata.modified else t1) = (db2, .ok r2) := by
      rw [← h2]
      simp [execute_one, hp, hmode, hget]
    rw [← hrd] at h2'
    simp only [commit, eq_self_iff_true, if_true, Prod.mk.injEq, Except.ok.injEq] at h2'
    have hr2 : r2 = ⟨key, ⟨r1.value.data,
        ⟨r1.value.metadata.created, r1.value.metadata.modified⟩⟩⟩ := h2'.2.symm
    have hr1 : r1 = ⟨key, ⟨r1.value.data,
        ⟨r1.value.metadata.created, r1.value.metadata.modified⟩⟩⟩ := by
      rw [← hrk]
    rw [hr2, ← hr1]
    exact ⟨rfl, rfl, rfl⟩
  · intro now db db' e r key data sp old hp hget h
    have h' : commit db sp key data old.metadata.created
        (if data = old.data then old.metadata.modified else now) = (db', .ok r) := by
      rw [← h]
      simp [execute_one, hp, hmode, hget]
    simp only [commit, Prod.mk.injEq] at h'
    injection h'.2 with hr
    rw [← hr]
    exact ⟨rfl, rfl⟩

/-- Witness for C1: a concrete double `Replace` of the same entity. -/
theorem replace_rewrite_idempotent_witness :
    (({ key := 3, value := { data := [3], metadata := { created := 5, modified := 5 } } } : DataRow Nat) =
      { key := 3, value := { data := [3], metadata := { created := 5, modified := 5 } } }) ∧
    ({ key := 3, value := { data := [3], metadata := { created := 5, modified := 5 } } } : DataRow Nat).value.metadata.modified =
      ({ key := 3, value := { data := [3], metadata := { created := 5, modified := 5 } } } : DataRow Nat).value.metadata.modified ∧
    ({ key := 3, value := { data := [3], metadata := { created := 5, modified := 5 } } } : DataRow Nat).value.metadata.created =
      ({ key := 3, value := { data := [3], metadata := { created := 5, modified := 5 } } } : DataRow Nat).value.metadata.created :=
  (replace_rewrite_idempotent natEnv { mode := .Replace, options := .default } rfl).1
    5 9 emptyDb
    (execute_one natEnv { mode := .Replace, options := .default } 5 emptyDb 3).1
    (execute_one natEnv { mode := .Replace, options := .default } 9
      (execute_one natEnv { mode := .Replace, options := .default } 5 emptyDb 3).1 3).1
    3
    { key := 3, value := { data := [3], metadata := { created := 5, modified := 5 } } }
    { key := 3, value := { data := [3], metadata := { created := 5, modified := 5 } } }
    (Prod.ext rfl (by decide)) (Prod.ext rfl (by decide))

/-- Claim C7: the on-create hook is consulted exactly when the conflict
mode is `Create`: for `Update` and `Replace` the pipeline's outcome is
unchanged under any replacement of the hook, while under `Create` the
pipeline behaves as the hook-free pipeline applied to the hooked entity;
and the batch-wide sanitize and validate flags default to on. -/
theorem on_create_iff_create_mode :
    (∀ (env : SaveEnv E CK P K SP) (f : E → E) (cfg : SaveBuilderConfig)
        (now : Timestamp) (db : Db SP K) (e : E),
      cfg.mode ≠ SaveMode.Create →
      execute_one { env with ops := { env.ops with on_create := f } } cfg now db e =
        execute_one env cfg now db e) ∧
    (∀ (env : SaveEnv E CK P K SP) (cfg : SaveBuilderConfig)
        (now : Timestamp) (db : Db SP K) (e : E),
      cfg.mode = SaveMode.Create →
      execute_one env cfg now db e =
        execute_one { env with ops := { env.ops with on_create := fun x => x } }
          cfg now db (env.ops.on_create e)) ∧
    (SaveOptions.default.sanitize = true ∧ SaveOptions.default.validate = true) := by
  refine ⟨?_, ?_, rfl, rfl⟩
  · intro env f cfg now db e hmode
    simp [execute_one, prepare, procEntity, hmode]
  · intro env cfg now db e hmode
    simp [execute_one, prepare, procEntity, hmode]

/-- Witness for C7: a concrete `Update` save is unchanged when the hook
is replaced, and a concrete `Create` save factors through the hook. -/
theorem on_create_iff_create_mode_witness :
    (execute_one { natEnv with ops := { natOps with on_create := fun x => x + 1 } }
        { mode := .Update, options := .default } 5 emptyDb 3 =
      execute_one natEnv { mode := .Update, options := .default } 5 emptyDb 3) ∧
    (execute_one natEnv { mode := .Create, options := .default } 5 emptyDb 3 =
      execute_one { natEnv with ops := { natOps with on_create := fun x => x } }
        { mode := .Create, options := .default } 5 emptyDb (natOps.on_create 3)) ∧
    (SaveOptions.default.sanitize = true ∧ SaveOptions.default.validate = true) :=
  ⟨on_create_iff_create_mode.1 natEnv (fun x => x + 1)
      { mode := .Update, options := .default } 5 emptyDb 3 (by decide),
   on_create_iff_create_mode.2.1 natEnv
      { mode := .Create, options := .default } 5 emptyDb 3 rfl,
   (@on_create_iff_create_mode Nat Nat String Nat String _ _).2.2⟩

/-- If a prefix of a batch commits successfully and the next item fails,
the whole batch run returns that error together with the store exactly
as the prefix left it: the failing item and everything after it never
touch the store. -/
theorem executeFrom_prefix_fail (env : SaveEnv E CK P K SP) (cfg : SaveBuilderConfig)
    (times : Nat → Timestamp) (pre : List E) :
    ∀ (i : Nat) (db db1 : Db SP K) (rows : List (DataRow K)) (bad : E)
      (rest : List E) (err : Error K),
      executeFrom env cfg times i db pre = (db1, .ok rows) →
      (execute_one env cfg (times (i + pre.length)) db1 bad).2 = .error err →
      executeFrom env cfg times i db (pre ++ bad :: rest) = (db1, .error err) := by
  induction pre with
  | nil =>
    intro i db db1 rows bad rest err hpre hbad
    simp only [executeFrom, Prod.mk.injEq] at hpre
    obtain ⟨hdb, _⟩ := hpre
    subst hdb
    simp only [List.length_nil, Nat.add_zero] at hbad
    rcases hres : execute_one env cfg (times i) db bad with ⟨dbx, ex⟩
    have hex : ex = .error err := by rw [hres] at hbad; exact hbad
    subst hex
    have hdbx : dbx = db := execute_one_error_eq env cfg (times i) db dbx bad err hres
    subst hdbx
    simp only [List.nil_append, executeFrom, hres]
  | cons a pre ih =>
    intro i db db1 rows bad rest err hpre hbad
    rcases hres : execute_one env cfg (times i) db a with ⟨dbx, ex⟩
    cases ex with
    | error e0 =>
      rw [executeFrom, hres] at hpre
      exact absurd (congrArg Prod.snd hpre) (by simp)
    | ok row =>
      rw [executeFrom, hres] at hpre
      dsimp only at hpre
      rcases hrec : executeFrom env cfg times (i + 1) dbx pre with ⟨dby, ey⟩
      rw [hrec] at hpre
      cases ey with
      | error e1 => exact absurd (congrArg Prod.snd hpre) (by simp)
      | ok rows' =>
        simp only [Prod.mk.injEq] at hpre
        obtain ⟨hdb1, _⟩ := hpre
        subst hdb1
        have hlen : i + 1 + pre.length = i + (a :: pre).length := by
          simp only [List.length_cons]
          omega
        have hbad' : (execute_one env cfg (times (i + 1 + pre.length)) dby bad).2 =
            .error err := by
          rw [hlen]
          exact hbad
        have hmain := ih (i + 1) dbx dby rows' bad rest err hrec hbad'
        rw [List.cons_append, executeFrom, hres]
        dsimp only
        rw [hmain]

/-- Every change a successful batch run makes to the store is the
commit of one of its returned rows: any location whose content changed
now holds the value of a returned row with that key. -/
theorem executeFrom_ok_store (env : SaveEnv E CK P K SP) (cfg : SaveBuilderConfig)
    (times : Nat → Timestamp) (es : List E) :
    ∀ (i : Nat) (db db1 : Db SP K) (rows : List (DataRow K)),
      executeFrom env cfg times i db es = (db1, .ok rows) →
      ∀ (sp : SP) (k : K),
        db1.get sp k = db.get sp k ∨
        ∃ row ∈ rows, row.key = k ∧ db1.get sp k = some row.value := by
  induction es with
  | nil =>
    intro i db db1 rows hpre sp k
    simp only [executeFrom, Prod.mk.injEq] at hpre
    obtain ⟨hdb, _⟩ := hpre
    subst hdb
    exact Or.inl rfl
  | cons a es ih =>
    intro i db db1 rows hpre sp k
    rcases hres : execute_one env cfg (times i) db a with ⟨dbx, ex⟩
    cases ex with
    | error e0 =>
      rw [executeFrom, hres] at hpre
      exact absurd (congrArg Prod.snd hpre) (by simp)
    | ok row =>
      rw [executeFrom, hres] at hpre
      dsimp only at hpre
      rcases hrec : executeFrom env cfg times (i + 1) dbx es with ⟨dby, ey⟩
      rw [hrec] at hpre
      cases ey with
      | error e1 => exact absurd (congrArg Prod.snd hpre) (by simp)
      | ok rows' =>
        simp only [Prod.mk.injEq, Except.ok.injEq] at hpre
        obtain ⟨hdb1, hrows⟩ := hpre
        subst hdb1
        subst hrows
        obtain ⟨key, data, sp0, _, hrk, _, hdbx, _⟩ :=
          execute_one_ok_inv env cfg (times i) db dbx a row hres
        rcases ih (i + 1) dbx dby rows' hrec sp k with hsame | ⟨row', hmem, hkeq, hval⟩
        · by_cases hc : sp = sp0 ∧ k = key
          · refine Or.inr ⟨row, List.mem_cons_self _ _, ?_, ?_⟩
            · rw [hrk, hc.2]
            · rw [hsame, hdbx]
              simp [Db.get, Db.insert, hc.1, hc.2]
          · refine Or.inl ?_
            rw [hsame, hdbx]
            exact Db.get_insert_ne db sp0 sp key k row.value hc
        · exact Or.inr ⟨row', List.mem_cons_of_mem _ hmem, hkeq, hval⟩

/-- Claim C5: a batch processes items sequentially in input order; when
item i is the first to fail, the run returns that item's error, the
final store is exactly the store the committed prefix left (so items
1..i-1 are committed and the failing item and everything after it
perform no store mutation), and every store location that changed holds
the committed value of one of the prefix's returned rows — items from
position i on contribute nothing to the store. -/
theorem batch_fail_fast_partial_commit (env : SaveEnv E CK P K SP)
    (cfg : SaveBuilderConfig) (times : Nat → Timestamp) (db db1 : Db SP K)
    (pre : List E) (bad : E) (rest : List E) (rows : List (DataRow K)) (err : Error K)
    (hpre : execute env cfg times db pre = (db1, .ok rows))
    (hbad : (execute_one env cfg (times pre.length) db1 bad).2 = .error err) :
    execute env cfg times db (pre ++ bad :: rest) = (db1, .error err) ∧
    (execute env cfg times db (pre ++ bad :: rest)).1 = db1 ∧
    (∀ (sp : SP) (k : K),
      db1.get sp k = db.get sp k ∨
      ∃ row ∈ rows, row.key = k ∧ db1.get sp k = some row.value) := by
  have hb : (execute_one env cfg (times (0 + pre.length)) db1 bad).2 = .error err := by
    simpa using hbad
  have hmain := executeFrom_prefix_fail env cfg times pre 0 db db1 rows bad rest err hpre hb
  exact ⟨hmain, by rw [show execute env cfg times db (pre ++ bad :: rest) =
      (db1, .error err) from hmain],
    executeFrom_ok_store env cfg times pre 0 db db1 rows hpre⟩

/-- Witness for C5: a concrete two-committed, one-failing batch. -/
theorem batch_fail_fast_partial_commit_witness :
    execute natEnv { mode := .Create, options := .default } (fun i => 5 + i) emptyDb
        ([3] ++ 901 :: [4]) =
      ((execute natEnv { mode := .Create, options := .default } (fun i => 5 + i) emptyDb [3]).1,
       .error (.validation "field out of range")) ∧
    (execute natEnv { mode := .Create, options := .default } (fun i => 5 + i) emptyDb
        ([3] ++ 901 :: [4])).1 =
      (execute natEnv { mode := .Create, options := .default } (fun i => 5 + i) emptyDb [3]).1 ∧
    (∀ (sp : String) (k : Nat),
      ((execute natEnv { mode := .Create, options := .default } (fun i => 5 + i) emptyDb [3]).1).get sp k =
          emptyDb.get sp k ∨
      ∃ row ∈ [({ key := 3, value := { data := [103], metadata := { created := 5, modified := 5 } } } : DataRow Nat)],
        row.key = k ∧
        ((execute natEnv { mode := .Create, options := .default } (fun i => 5 + i) emptyDb [3]).1).get sp k =
          some row.value) :=
  batch_fail_fast_partial_commit natEnv { mode := .Create, options := .default }
    (fun i => 5 + i) emptyDb
    (execute natEnv { mode := .Create, options := .default } (fun i => 5 + i) emptyDb [3]).1
    [3] 901 [4]
    [{ key := 3, value := { data := [103], metadata := { created := 5, modified := 5 } } }]
    (.validation "field out of range")
    (Prod.ext rfl (by decide)) (by decide)

/-- Claim C9: each single-row accessor on a save result returns
`NoResultsFound` exactly when the batch result is empty; on a non-empty
result each returns its projection of the first committed row —
`query_row` the untyped wrapper, `entity_row` the typed decode of the
first row, `entity` the decoded entity itself. -/
theorem result_single_row_accessors {K Ent : Type} (res : SaveBuilderResult K)
    (deser : List Nat → Except String Ent) :
    (res.query_row = .error (.save .noResultsFound) ↔ res.results = []) ∧
    (SaveBuilderResult.entity_row deser res =
      (.error (.save .noResultsFound) : Except (Error K) (EntityRow K Ent)) ↔
      res.results = []) ∧
    (SaveBuilderResult.entity deser res =
      (.error (.save .noResultsFound) : Except (Error K) Ent) ↔
      res.results = []) ∧
    (∀ (r : DataRow K) (t : List (DataRow K)), res.results = r :: t →
      res.query_row = .ok r.toQueryRow ∧
      SaveBuilderResult.entity_row deser res = r.tryIntoEntityRow deser ∧
      SaveBuilderResult.entity deser res =
        (r.tryIntoEntityRow deser).map (fun er => er.value.entity)) := by
  cases hres : res.results with
  | nil =>
    refine ⟨?_, ?_, ?_, ?_⟩
    · simp [SaveBuilderResult.query_row, hres]
    · simp [SaveBuilderResult.entity_row, hres]
    · simp [SaveBuilderResult.entity, hres]
    · intro r t h
      exact absurd h (by simp)
  | cons r t =>
    have hqr : res.query_row = .ok r.toQueryRow := by
      simp [SaveBuilderResult.query_row, hres]
    have her : SaveBuilderResult.entity_row deser res = r.tryIntoEntityRow deser := by
      simp [SaveBuilderResult.entity_row, hres]
    have hen : SaveBuilderResult.entity deser res =
        (r.tryIntoEntityRow deser).map (fun er => er.value.entity) := by
      simp [SaveBuilderResult.entity, hres]
    refine ⟨?_, ?_, ?_, ?_⟩
    · rw [hqr]
      simp [hres]
    · rw [her]
      unfold DataRow.tryIntoEntityRow
      cases hdes : deser r.value.data <;> simp [hres]
    · rw [hen]
      unfold DataRow.tryIntoEntityRow
      cases hdes : deser r.value.data <;> simp [hres, Except.map]
    · intro r' t' h
      injection h with h1 h2
      subst h1
      exact ⟨hqr, her, hen⟩

/-- Witness for C9: the accessors on an empty and on a singleton result. -/
theorem result_single_row_accessors_witness :
    SaveBuilderResult.query_row ({ results := [] } : SaveBuilderResult Nat) =
      .error (.save .noResultsFound) ∧
    SaveBuilderResult.query_row
        ({ results := [{ key := 3, value := { data := [7], metadata := { created := 1, modified := 2 } } }] } :
          SaveBuilderResult Nat) =
      .ok ({ key := 3, value := { data := [7], metadata := { created := 1, modified := 2 } } } : DataRow Nat).toQueryRow ∧
    SaveBuilderResult.entity natDeser
        ({ results := [{ key := 3, value := { data := [7], metadata := { created := 1, modified := 2 } } }] } :
          SaveBuilderResult Nat) =
      (({ key := 3, value := { data := [7], metadata := { created := 1, modified := 2 } } } : DataRow Nat).tryIntoEntityRow
          natDeser).map (fun er => er.value.entity) := by
  refine ⟨(result_single_row_accessors ({ results := [] } : SaveBuilderResult Nat) natDeser).1.mpr rfl, ?_, ?_⟩
  · exact ((result_single_row_accessors
        ({ results := [{ key := 3, value := { data := [7], metadata := { created := 1, modified := 2 } } }] } :
          SaveBuilderResult Nat) natDeser).2.2.2
      { key := 3, value := { data := [7], metadata := { created := 1, modified := 2 } } } [] rfl).1
  · exact ((result_single_row_accessors
        ({ results := [{ key := 3, value := { data := [7], metadata := { created := 1, modified := 2 } } }] } :
          SaveBuilderResult Nat) natDeser).2.2.2
      { key := 3, value := { data := [7], metadata := { created := 1, modified := 2 } } } [] rfl).2.2

/-- Claim C8 counterexample: the remote-unit upgrade wrapper returns
success on a mismatched response variant — it does not surface an
`InvalidResponse` error. -/
theorem upgrade_mismatch_accepted :
    request_canister_upgrade (.ok (.canisterCreate 0)) = .ok () ∧
    request_canister_upgrade (.ok (.canisterCreate 0)) ≠
      .error (.invalidResponse (.canisterCreate 0)) := by
  exact ⟨rfl, by decide⟩

/-- Claim C8 (amended): the remote-unit creation and resource transfer
wrappers surface a mismatched awaited response variant as an
`InvalidResponse` error embedding the unexpected response; the
remote-unit upgrade wrapper instead discards the response without
inspecting its variant and reports success. -/
theorem invalid_response_on_mismatch :
    (∀ (index : ChildIndex) (path : String) (r : Response),
      (∀ id, r ≠ .canisterCreate id) →
      request_canister_create index path (.ok r) =
        (index, .error (.invalidResponse r))) ∧
    (∀ (balance min_cycles initial_cycles : Nat) (r : Response),
      cyclesNeeded balance min_cycles initial_cycles > 0 →
      r ≠ .cycles →
      request_cycles balance min_cycles initial_cycles (.ok r) =
        .error (.invalidResponse r)) ∧
    (∀ (r : Response), request_canister_upgrade (.ok r) = .ok ()) := by
  refine ⟨?_, ?_, fun r => rfl⟩
  · intro index path r hr
    cases r with
    | canisterCreate id => exact absurd rfl (hr id)
    | canisterUpgrade => rfl
    | cycles => rfl
  · intro b m i r hneed hr
    unfold request_cycles
    rw [if_pos hneed]
    cases r with
    | canisterCreate id => rfl
    | canisterUpgrade => rfl
    | cycles => exact absurd rfl hr

/-- Witness for the amended C8 at concrete mismatched responses. -/
theorem invalid_response_on_mismatch_witness :
    request_canister_create [] "game" (.ok .canisterUpgrade) =
      ([], .error (.invalidResponse .canisterUpgrade)) ∧
    request_cycles 5 10 20 (.ok .canisterUpgrade) =
      .error (.invalidResponse .canisterUpgrade) ∧
    request_canister_upgrade (.ok .cycles) = .ok () :=
  ⟨invalid_response_on_mismatch.1 [] "game" .canisterUpgrade
      (fun id h => Response.noConfusion h),
   invalid_response_on_mismatch.2.1 5 10 20 .canisterUpgrade (by decide) (by decide),
   invalid_response_on_mismatch.2.2 .cycles⟩

end Claims

end Mimic
